import Mathlib

/-!
Verification development for the circuit-simulator core: node identification,
MNA stamping, Gaussian elimination, and the per-component physical state
models (fuse, lamp, battery, capacitor, voltage source), together with the
simulation-step coordinator of the application store.

Modelling conventions:
* JavaScript numbers are modelled by `FP`: a rational payload plus the three
  non-finite IEEE values NaN, +Infinity and -Infinity.  Rational arithmetic
  stands in for exact binary floating point (signed zero is not distinguished);
  the special values follow IEEE-754 / JavaScript semantics, which is what the
  claims about NaN propagation and divide-by-zero are about.
* JavaScript `Map` (string keys, insertion-order iteration, in-place update
  on repeated `set`) is modelled by `JMap`, an association list.
* Fallible code paths (property accesses like `terminals[1].id` that throw a
  TypeError when the terminal is absent) are modelled with `Option`.
* 3D geometry (positions, meshes) is omitted: the solver and the state models
  never read it.
-/

/-- JavaScript number: either a finite value (modelled as a rational) or one
of the IEEE special values NaN / +Infinity / -Infinity. -/
inductive FP where
  | num (q : ℚ)
  | nan
  | inf
  | ninf
deriving DecidableEq, Repr

/-- True exactly on finite values. -/
def FP.isFinite : FP → Bool
  | .num _ => true
  | _ => false

/-- IEEE negation. -/
def FP.neg : FP → FP
  | .num q => .num (-q)
  | .nan => .nan
  | .inf => .ninf
  | .ninf => .inf

/-- IEEE addition: NaN propagates, Infinity + (-Infinity) = NaN. -/
def FP.add : FP → FP → FP
  | .nan, _ => .nan
  | _, .nan => .nan
  | .inf, .ninf => .nan
  | .ninf, .inf => .nan
  | .inf, _ => .inf
  | .ninf, _ => .ninf
  | .num _, .inf => .inf
  | .num _, .ninf => .ninf
  | .num a, .num b => .num (a + b)

/-- IEEE subtraction. -/
def FP.sub (a b : FP) : FP := a.add b.neg

/-- IEEE multiplication: NaN propagates, Infinity * 0 = NaN. -/
def FP.mul : FP → FP → FP
  | .nan, _ => .nan
  | _, .nan => .nan
  | .num a, .num b => .num (a * b)
  | .inf, .num b => if b = 0 then .nan else if 0 < b then .inf else .ninf
  | .num a, .inf => if a = 0 then .nan else if 0 < a then .inf else .ninf
  | .ninf, .num b => if b = 0 then .nan else if 0 < b then .ninf else .inf
  | .num a, .ninf => if a = 0 then .nan else if 0 < a then .ninf else .inf
  | .inf, .inf => .inf
  | .inf, .ninf => .ninf
  | .ninf, .inf => .ninf
  | .ninf, .ninf => .inf

/-- IEEE division (unsigned zero: a nonzero finite value divided by zero gives
the infinity matching the numerator's sign, and 0/0 gives NaN, exactly the
JavaScript behaviour the NaN-propagation claim is about). -/
def FP.div : FP → FP → FP
  | .nan, _ => .nan
  | _, .nan => .nan
  | .num a, .num b =>
      if b = 0 then (if a = 0 then .nan else if 0 < a then .inf else .ninf)
      else .num (a / b)
  | .num _, .inf => .num 0
  | .num _, .ninf => .num 0
  | .inf, .num b => if 0 ≤ b then .inf else .ninf
  | .ninf, .num b => if 0 ≤ b then .ninf else .inf
  | .inf, .inf => .nan
  | .inf, .ninf => .nan
  | .ninf, .inf => .nan
  | .ninf, .ninf => .nan

/-- JavaScript Math.abs. -/
def FP.abs : FP → FP
  | .num q => .num |q|
  | .nan => .nan
  | .inf => .inf
  | .ninf => .inf

/-- IEEE strict less-than; every comparison involving NaN is false. -/
def FP.lt : FP → FP → Bool
  | .nan, _ => false
  | _, .nan => false
  | .num a, .num b => decide (a < b)
  | .ninf, .ninf => false
  | .ninf, _ => true
  | _, .ninf => false
  | .inf, _ => false
  | .num _, .inf => true

/-- JavaScript Math.max on two arguments: NaN-absorbing, otherwise the larger. -/
def FP.fmax (a b : FP) : FP :=
  if a = .nan ∨ b = .nan then .nan else if FP.lt a b then b else a

/-- JavaScript truthiness test for a possibly-absent number: `undefined`, `0`
and `NaN` are falsy.  Backs every `x || default` read in the source. -/
def FP.falsy : Option FP → Bool
  | none => true
  | some .nan => true
  | some (.num q) => decide (q = 0)
  | some _ => false

/-- JavaScript `v || 0` applied to a possibly-absent map lookup. -/
def fpOrZero (v : Option FP) : FP :=
  if FP.falsy v then .num 0 else v.getD (.num 0)

/-- JavaScript `x || d` for a rational-valued property read (`undefined` and
`0` select the default, as JavaScript's falsiness does). -/
def orQ (v : Option ℚ) (d : ℚ) : ℚ :=
  match v with
  | none => d
  | some x => if x = 0 then d else x

/-- JavaScript truthiness of a possibly-absent boolean property. -/
def orB (v : Option Bool) : Bool := v.getD false

/-- Association-list model of a JavaScript `Map` with string keys: lookup by
first match, `set` updates in place keeping insertion order, iteration order
is insertion order. -/
structure JMap (β : Type) where
  entries : List (String × β)
deriving DecidableEq, Repr

/-- The empty map. -/
def JMap.empty {β : Type} : JMap β := ⟨[]⟩

/-- First-match lookup in an association list. -/
def jlookup {β : Type} : List (String × β) → String → Option β
  | [], _ => none
  | e :: t, k => if e.1 = k then some e.2 else jlookup t k

/-- In-place update of the first entry with the given key, appending a fresh
entry at the end when the key is absent — `Map.prototype.set` order semantics
(a `JMap` built only through `set` has distinct keys, so first-match update is
exact). -/
def jset {β : Type} : List (String × β) → String → β → List (String × β)
  | [], k, v => [(k, v)]
  | e :: t, k, v => if e.1 = k then (k, v) :: t else e :: jset t k v

/-- Lookup, `Map.prototype.get`. -/
def JMap.get? {β : Type} (m : JMap β) (k : String) : Option β :=
  jlookup m.entries k

/-- Key-membership test, `Map.prototype.has`. -/
def JMap.hasKey {β : Type} (m : JMap β) (k : String) : Bool :=
  (m.get? k).isSome

/-- Update, `Map.prototype.set`. -/
def JMap.set {β : Type} (m : JMap β) (k : String) (v : β) : JMap β :=
  ⟨jset m.entries k v⟩

/-- Keys in insertion order. -/
def JMap.keys {β : Type} (m : JMap β) : List String := m.entries.map (·.1)

/-- Number of entries, `Map.prototype.size`. -/
def JMap.size {β : Type} (m : JMap β) : ℕ := m.entries.length

/-- Values in insertion order. -/
def JMap.values {β : Type} (m : JMap β) : List β := m.entries.map (·.2)

theorem JMap.get?_set_self {β : Type} (m : JMap β) (k : String) (v : β) :
    (m.set k v).get? k = some v := by
  rcases m with ⟨l⟩
  show jlookup (jset l k v) k = some v
  induction l with
  | nil => simp [jset, jlookup]
  | cons e t ih =>
    by_cases h : e.1 = k
    · simp [jset, jlookup, h]
    · simp [jset, jlookup, h, ih]

theorem JMap.get?_set_ne {β : Type} (m : JMap β) (k k' : String) (v : β)
    (h : k ≠ k') : (m.set k v).get? k' = m.get? k' := by
  rcases m with ⟨l⟩
  show jlookup (jset l k v) k' = jlookup l k'
  induction l with
  | nil => simp [jset, jlookup, h]
  | cons e t ih =>
    by_cases he : e.1 = k
    · simp [jset, jlookup, he, h, ih]
    · by_cases he' : e.1 = k'
      · simp [jset, jlookup, he, he', Ne.symm h]
      · simp [jset, jlookup, he, he', ih]

theorem JMap.keys_set {β : Type} (m : JMap β) (k : String) (v : β) :
    (m.set k v).keys = if k ∈ m.keys then m.keys else m.keys ++ [k] := by
  rcases m with ⟨l⟩
  show (jset l k v).map (·.1) = _
  induction l with
  | nil => simp [jset, JMap.keys]
  | cons e t ih =>
    by_cases he : e.1 = k
    · simp [jset, JMap.keys, he]
    · simp only [jset, he, if_neg, List.map_cons]
      simp only [JMap.keys] at ih ⊢
      by_cases hk : k ∈ t.map (·.1)
      · simp [List.map_cons, hk, ih, Ne.symm he]
      · simp [List.map_cons, hk, ih, Ne.symm he]

theorem JMap.keys_set_nodup {β : Type} (m : JMap β) (k : String) (v : β)
    (h : m.keys.Nodup) : (m.set k v).keys.Nodup := by
  rw [JMap.keys_set]
  by_cases hk : k ∈ m.keys
  · simpa [hk] using h
  · simpa [hk, List.nodup_append] using h

/-- Component kind tags, from the `ComponentType` enumeration of the source. -/
inductive ComponentType where
  | resistor
  | capacitor
  | inductor
  | diode
  | zenerDiode
  | led
  | fuse
  | voltageSource
  | currentSource
  | battery
  | ground
  | mosfet
  | bjt
  | jfet
  | thyristor
  | transistor
  | optocoupler
  | logicGateAnd
  | logicGateOr
  | logicGateNot
  | logicGateNand
  | logicGateXor
  | opAmp
  | switch
  | potentiometer
  | varistor
  | mcb
  | relay
  | lamp
  | dcMotor
deriving DecidableEq, Repr

/-- A component terminal: stable identity plus name.  Geometry and the
per-tick solved voltage/current mirrors are omitted — the solver reads only
the identity. -/
structure Terminal where
  tid : String
  tname : String
deriving DecidableEq, Repr

/-- The slice of the free-form property bag that the solver reads, each field
optional exactly as a JavaScript property read can be `undefined`. -/
structure Props where
  value : Option ℚ := none
  voltage : Option ℚ := none
  resistance : Option ℚ := none
  closed : Option Bool := none
  blown : Option Bool := none
deriving DecidableEq, Repr

/-- A circuit component as the solver sees it. -/
structure Component where
  cid : String
  ctype : ComponentType
  terminals : List Terminal
  props : Props
deriving DecidableEq, Repr

/-- A wire joins exactly two terminals (by identity) and contributes only to
node merging. -/
structure Wire where
  wid : String
  fromTerminal : String
  toTerminal : String
deriving DecidableEq, Repr

/-- Union-find `find` with path compression over the parent map, fuel-bounded
for termination.  The source recurses along the parent chain, which the
initialisation keeps acyclic; fuel at least the map size makes the model agree
with it.  A lookup miss returns the argument itself (in the source, `find` is
only ever invoked on registered terminal identities). -/
def ufFind : ℕ → JMap String → String → String × JMap String
  | 0, p, i => (i, p)
  | fuel + 1, p, i =>
    match p.get? i with
    | none => (i, p)
    | some pi =>
      if pi = i then (i, p)
      else
        let r := ufFind fuel p pi
        (r.1, r.2.set i r.1)

/-- Union-find `union`: links the root of the first argument under the root of
the second when they differ. -/
def ufUnion (p : JMap String) (i j : String) : JMap String :=
  let fi := ufFind (p.size + 1) p i
  let fj := ufFind (fi.2.size + 1) fi.2 j
  if fi.1 ≠ fj.1 then fj.2.set fi.1 fj.1 else fj.2

/-- Registers every terminal of every component as its own singleton set, in
component order then terminal order. -/
def initParent (comps : List Component) : JMap String :=
  comps.foldl (fun p c => c.terminals.foldl (fun p t => p.set t.tid t.tid) p)
    JMap.empty

/-- Merges the two endpoints of every wire whose terminals are both known. -/
def unionWires (p : JMap String) (wires : List Wire) : JMap String :=
  wires.foldl
    (fun p w =>
      if p.hasKey w.fromTerminal && p.hasKey w.toTerminal then
        ufUnion p w.fromTerminal w.toTerminal
      else p)
    p

/-- The parent map after registering all terminals and merging all wires. -/
def circuitParent (comps : List Component) (wires : List Wire) :
    JMap String :=
  unionWires (initParent comps) wires

/-- Walks all registered terminals in insertion order, grouping them under
their root: returns the node map (root to member terminals), the terminal to
node map, and the (path-compressed) parent map. -/
def buildNodes (p : JMap String) :
    JMap (List String) × JMap String × JMap String :=
  p.keys.foldl
    (fun acc tid =>
      let (nodes, t2n, p) := acc
      let fr := ufFind (p.size + 1) p tid
      (nodes.set fr.1 ((nodes.get? fr.1).getD [] ++ [tid]),
       t2n.set tid fr.1, fr.2))
    (JMap.empty, JMap.empty, p)

/-- Ground selection of the source: the first component tagged as a dedicated
voltage source, when it has a second terminal, grounds that terminal's node;
batteries and ground references do not participate in this search. -/
def selectGround (comps : List Component) (p : JMap String) : Option String :=
  match comps.find? (fun c => c.ctype = ComponentType.voltageSource) with
  | none => none
  | some vs =>
    match vs.terminals.get? 1 with
    | none => none
    | some t => some (ufFind (p.size + 1) p t.tid).1

/-- The index-assignment loop: every node whose current index is not the
ground sentinel -1 receives the running index, in list order. -/
def assignLoop (ids : List String) (m : JMap Int) (idx : ℕ) : JMap Int :=
  match ids with
  | [] => m
  | nid :: rest =>
    if m.get? nid = some (-1) then assignLoop rest m idx
    else assignLoop rest (m.set nid (Int.ofNat idx)) (idx + 1)

/-- Index assignment: the selected ground (or, absent one, the first node
discovered) gets the sentinel -1, then all remaining nodes get 0, 1, ... in
discovery order. -/
def assignIndices (gnd : Option String) (nodeIds : List String) : JMap Int :=
  let base : JMap Int :=
    match gnd with
    | some g => JMap.empty.set g (-1)
    | none =>
      match nodeIds with
      | [] => JMap.empty
      | h :: _ => JMap.empty.set h (-1)
  assignLoop nodeIds base 0

/-- Result of node identification. -/
structure NodeInfo where
  nodes : JMap (List String)
  terminalToNode : JMap String
  nodeIndex : JMap Int
deriving DecidableEq, Repr

/-- The node-identification pass: union-find over terminals, node maps, ground
selection, and matrix-row index assignment. -/
def identifyNodes (comps : List Component) (wires : List Wire) : NodeInfo :=
  let p := circuitParent comps wires
  let bn := buildNodes p
  let gnd := selectGround comps bn.2.2
  { nodes := bn.1
    terminalToNode := bn.2.1
    nodeIndex := assignIndices gnd bn.1.keys }

/-- Rational matrix read with out-of-bounds default 0 (stamping indices are in
bounds by construction). -/
def qmget (A : Array (Array ℚ)) (i j : ℕ) : ℚ := (A.getD i #[]).getD j 0

/-- Rational matrix write (out of bounds: unchanged). -/
def qmset (A : Array (Array ℚ)) (i j : ℕ) (v : ℚ) : Array (Array ℚ) :=
  A.setD i ((A.getD i #[]).setD j v)

/-- FP matrix read; an out-of-bounds read surfaces as NaN rather than being
silently masked. -/
def fpmget (A : Array (Array FP)) (i j : ℕ) : FP := (A.getD i #[]).getD j FP.nan

/-- FP matrix write. -/
def fpmset (A : Array (Array FP)) (i j : ℕ) (v : FP) : Array (Array FP) :=
  A.setD i ((A.getD i #[]).setD j v)

/-- The conductance-stamp helper `addG` of the source: adds the conductance to
both self terms and subtracts it from both cross terms, skipping any endpoint
whose node is unknown or carries the ground sentinel. -/
def addG (ni : NodeInfo) (G : Array (Array ℚ)) (n1 n2 : String) (g : ℚ) :
    Array (Array ℚ) :=
  let i := (ni.terminalToNode.get? n1).bind ni.nodeIndex.get?
  let j := (ni.terminalToNode.get? n2).bind ni.nodeIndex.get?
  let G :=
    match i with
    | some iv =>
      if iv ≠ -1 then
        let G := qmset G iv.toNat iv.toNat (qmget G iv.toNat iv.toNat + g)
        match j with
        | some jv =>
          if jv ≠ -1 then
            qmset G iv.toNat jv.toNat (qmget G iv.toNat jv.toNat - g)
          else G
        | none => G
      else G
    | none => G
  match j with
  | some jv =>
    if jv ≠ -1 then
      let G := qmset G jv.toNat jv.toNat (qmget G jv.toNat jv.toNat + g)
      match i with
      | some iv =>
        if iv ≠ -1 then
          qmset G jv.toNat iv.toNat (qmget G jv.toNat iv.toNat - g)
        else G
      | none => G
    else G
  | none => G

/-- Instantaneous stamping resistance per component kind, from the stamping
branch of `solveMNA`; `none` for kinds that contribute no conductance stamp
(among them the ideal-voltage family, stamped separately). -/
def instantResistance (c : Component) : Option ℚ :=
  match c.ctype with
  | .resistor => some (orQ c.props.value 1000)
  | .led => some 50
  | .diode => some 100
  | .capacitor => some 1000000000
  | .inductor => some (1 / 100)
  | .potentiometer => some (max (orQ c.props.value 1000) (1 / 100))
  | .switch => some (if orB c.props.closed then 1 / 100 else 1000000000)
  | .fuse => some (if orB c.props.blown then 1000000000 else 1 / 100)
  | .lamp => some (max (orQ c.props.resistance 100) (1 / 100))
  | _ => none

/-- Conductance-stamping pass over all components.  Accessing a missing
terminal (`terminals[k].id` on `undefined`) is a thrown TypeError, modelled as
`none`. -/
def stampConductances (ni : NodeInfo) (comps : List Component)
    (G : Array (Array ℚ)) : Option (Array (Array ℚ)) :=
  comps.foldlM
    (fun G c =>
      match instantResistance c with
      | none => some G
      | some r => do
        let t0 ← c.terminals.get? 0
        let t1 ← c.terminals.get? 1
        some (addG ni G t0.tid t1.tid (1 / r)))
    G

/-- Membership in the ideal-voltage family that receives a branch-constraint
stamp: dedicated voltage source, battery or ground reference. -/
def isVoltageSourceKind (c : Component) : Bool :=
  c.ctype == ComponentType.voltageSource || c.ctype == ComponentType.battery ||
    c.ctype == ComponentType.ground

/-- Branch-constraint stamping for the ideal-voltage family: unit couplings
between the branch row and the terminal rows, and the element's present
voltage (JavaScript-default 5 when falsy) on the right-hand side.  Reading
`terminals[1].id` of a component without a second terminal throws, modelled as
`none`. -/
def stampSources (ni : NodeInfo) (numNodes : ℕ) (vsList : List Component)
    (G : Array (Array ℚ)) (I : Array ℚ) :
    Option (Array (Array ℚ) × Array ℚ) :=
  vsList.enum.foldlM
    (fun GI p => do
      let (idx, vs) := p
      let vIndex := numNodes + idx
      let voltage := orQ vs.props.voltage 5
      let t0 ← vs.terminals.get? 0
      let t1 ← vs.terminals.get? 1
      let posIdx := (ni.terminalToNode.get? t0.tid).bind ni.nodeIndex.get?
      let negIdx := (ni.terminalToNode.get? t1.tid).bind ni.nodeIndex.get?
      let G := GI.1
      let G :=
        match posIdx with
        | some pv =>
          if pv ≠ -1 then
            qmset (qmset G pv.toNat vIndex 1) vIndex pv.toNat 1
          else G
        | none => G
      let G :=
        match negIdx with
        | some nv =>
          if nv ≠ -1 then
            qmset (qmset G nv.toNat vIndex (-1)) vIndex nv.toNat (-1)
          else G
        | none => G
      some (G, GI.2.setD vIndex voltage))
    (G, I)

/-- Partial-pivot search of the source: scan rows below the diagonal and keep
the row with the strictly largest absolute entry in the active column
(IEEE comparison, so a NaN candidate never wins). -/
def pivotSearch (A : Array (Array FP)) (n i : ℕ) : ℕ :=
  ((List.range' (i + 1) (n - (i + 1))).foldl
    (fun acc k =>
      if FP.lt acc.1 (fpmget A k i).abs then ((fpmget A k i).abs, k) else acc)
    ((fpmget A i i).abs, i)).2

/-- Row swap of the source, restricted to columns at and right of the active
one, exactly as the loop bound in the source does. -/
def swapPartialRows (A : Array (Array FP)) (i maxRow n : ℕ) :
    Array (Array FP) :=
  (List.range' i (n - i)).foldl
    (fun A k =>
      let tmp := fpmget A maxRow k
      let A := fpmset A maxRow k (fpmget A i k)
      fpmset A i k tmp)
    A

/-- Forward-elimination of the rows below row `i`: the multiplier is
`-A[k][i] / A[i][i]` with no magnitude guard, so a zero (or NaN) pivot
produces NaN silently. -/
def eliminateBelow (Ab : Array (Array FP) × Array FP) (i n : ℕ) :
    Array (Array FP) × Array FP :=
  (List.range' (i + 1) (n - (i + 1))).foldl
    (fun Ab k =>
      let A := Ab.1
      let b := Ab.2
      let c := FP.div (FP.neg (fpmget A k i)) (fpmget A i i)
      let A :=
        (List.range' i (n - i)).foldl
          (fun A j =>
            if i = j then fpmset A k j (FP.num 0)
            else fpmset A k j (FP.add (fpmget A k j) (FP.mul c (fpmget A i j))))
          A
      (A, b.setD k (FP.add (b.getD k FP.nan) (FP.mul c (b.getD i FP.nan)))))
    Ab

/-- Gaussian elimination with partial pivoting and back substitution, the
`gaussianElimination` of the source.  It is total: there is no small-pivot
test and no failure result anywhere in it. -/
def gaussianElimination (A0 : Array (Array FP)) (b0 : Array FP) : Array FP :=
  let n := A0.size
  let fwd :=
    (List.range n).foldl
      (fun Ab i =>
        let maxRow := pivotSearch Ab.1 n i
        let A := swapPartialRows Ab.1 i maxRow n
        let b := Ab.2
        let tmp := b.getD maxRow FP.nan
        let b := (b.setD maxRow (b.getD i FP.nan)).setD i tmp
        eliminateBelow (A, b) i n)
      (A0, b0)
  (List.range n).reverse.foldl
    (fun x i =>
      let s :=
        (List.range' (i + 1) (n - (i + 1))).foldl
          (fun s j => FP.add s (FP.mul (fpmget fwd.1 i j) (x.getD j FP.nan)))
          (FP.num 0)
      x.setD i (FP.div (FP.sub (fwd.2.getD i FP.nan) s) (fpmget fwd.1 i i)))
    (Array.mkArray n (FP.num 0))

/-- Per-kind solved current, from the result-extraction chain of `solveMNA`;
ideal-voltage elements read their branch current from the solution vector,
kinds with no branch record no current. -/
def currentOf (c : Component) (vDrop : FP) (vsList : List Component)
    (numNodes : ℕ) (x : Array FP) : Option FP :=
  match c.ctype with
  | .resistor => some (FP.div vDrop (FP.num (orQ c.props.value 1000)))
  | .diode => some (FP.div vDrop (FP.num 100))
  | .capacitor => some (FP.div vDrop (FP.num 1000000000))
  | .inductor => some (FP.div vDrop (FP.num (1 / 100)))
  | .led => some (FP.div vDrop (FP.num 50))
  | .potentiometer =>
    some (FP.div vDrop (FP.num (max (orQ c.props.value 1000) (1 / 100))))
  | .switch =>
    some (FP.div vDrop
      (FP.num (if orB c.props.closed then 1 / 100 else 1000000000)))
  | .fuse =>
    some (FP.div vDrop
      (FP.num (if orB c.props.blown then 1000000000 else 1 / 100)))
  | .lamp =>
    some (FP.div vDrop (FP.num (max (orQ c.props.resistance 100) (1 / 100))))
  | .voltageSource | .battery | .ground =>
    match vsList.findIdx? (fun v => v.cid = c.cid) with
    | some vsIdx => some (x.getD (numNodes + vsIdx) FP.nan)
    | none => none
  | _ => none

/-- Result-extraction pass: per-component voltage drop (with the JavaScript
`|| 0` falsiness coercion on node-voltage reads) and per-component current.
Reading a missing terminal throws, modelled as `none`. -/
def extractComponents (ni : NodeInfo) (comps vsList : List Component)
    (numNodes : ℕ) (nodeVoltages : JMap FP) (x : Array FP) :
    Option (JMap FP × JMap FP) :=
  comps.foldlM
    (fun acc c => do
      let t0 ← c.terminals.get? 0
      let t1 ← c.terminals.get? 1
      let v1 := fpOrZero ((ni.terminalToNode.get? t0.tid).bind nodeVoltages.get?)
      let v2 := fpOrZero ((ni.terminalToNode.get? t1.tid).bind nodeVoltages.get?)
      let vDrop := FP.sub v1 v2
      let cv := acc.1.set c.cid vDrop
      let cc :=
        match currentOf c vDrop vsList numNodes x with
        | some cur => acc.2.set c.cid cur
        | none => acc.2
      some (cv, cc))
    (JMap.empty, JMap.empty)

/-- What one tick's solve hands back. -/
structure SolveResult where
  nodeVoltages : JMap FP
  componentVoltages : JMap FP
  componentCurrents : JMap FP
deriving DecidableEq, Repr

/-- The `solveMNA` pass of the source: sizes the system, stamps conductances
and branch constraints, runs Gaussian elimination, and extracts node and
component quantities.  `none` models a thrown TypeError (a stamped component
missing a terminal). -/
def solveMNA (comps : List Component) (ni : NodeInfo) : Option SolveResult := do
  let numNodes :=
    ni.nodeIndex.size - (if ni.nodeIndex.values.contains (-1) then 1 else 0)
  let vsList := comps.filter isVoltageSourceKind
  let msize := numNodes + vsList.length
  let G0 : Array (Array ℚ) := Array.mkArray msize (Array.mkArray msize 0)
  let I0 : Array ℚ := Array.mkArray msize 0
  let G1 ← stampConductances ni comps G0
  let GI ← stampSources ni numNodes vsList G1 I0
  let x :=
    gaussianElimination (GI.1.map (fun row => row.map FP.num))
      (GI.2.map FP.num)
  let nodeVoltages :=
    ni.nodeIndex.entries.foldl
      (fun (nv : JMap FP) e =>
        if e.2 = -1 then nv.set e.1 (FP.num 0)
        else nv.set e.1 (x.getD e.2.toNat FP.nan))
      JMap.empty
  let vc ← extractComponents ni comps vsList numNodes nodeVoltages x
  some { nodeVoltages := nodeVoltages, componentVoltages := vc.1,
         componentCurrents := vc.2 }

/-- The public `solve` of `CircuitSolver`: node identification followed by the
MNA solve. -/
def solveCircuit (comps : List Component) (wires : List Wire) :
    Option SolveResult :=
  solveMNA comps (identifyNodes comps wires)

/-- JavaScript `v || d` on a possibly-absent FP value. -/
def fpOrD (v : Option FP) (d : FP) : FP :=
  if FP.falsy v then d else v.getD d

/-- State record of a fuse, the `properties` set up by the `Fuse`
constructor. -/
structure FuseState where
  rating : ℚ
  voltage : ℚ
  current : ℚ
  power : ℚ
  blown : Bool
  resistance : ℚ
  heatAccumulated : ℚ
  maxCurrent : ℚ
deriving DecidableEq, Repr

/-- The `Fuse` constructor state for a given amp rating. -/
def mkFuseState (rating : ℚ) : FuseState :=
  { rating := rating, voltage := 0, current := 0, power := 0, blown := false,
    resistance := 1 / 100, heatAccumulated := 0, maxCurrent := rating }

/-- `Fuse.simulate`: reads its two terminal voltages (JavaScript `|| 0`), and
either presents the blown open circuit (near-infinite resistance, zero current
and power) or conducts, accumulating I-squared-t heat while the overcurrent
ratio exceeds 1 — blowing the moment accumulated heat passes the fixed
threshold 2 — and cooling linearly otherwise.  Node voltages are taken
rational (finite). -/
def fuseSimulate (deltaTime : ℚ) (nv : JMap ℚ) (t0 t1 : String)
    (st : FuseState) : FuseState :=
  let v1 := (nv.get? t0).getD 0
  let v2 := (nv.get? t1).getD 0
  let voltage := v1 - v2
  let maxCurrent := st.rating
  if st.blown then
    { st with
      voltage := voltage
      maxCurrent := maxCurrent
      resistance := 1000000000
      current := 0
      power := 0 }
  else
    let resistance : ℚ := 1 / 100
    let current := voltage / resistance
    let power := |voltage * current|
    let overRatio := |current| / st.rating
    if overRatio > 1 then
      let heat := st.heatAccumulated + overRatio * overRatio * deltaTime
      { st with
        voltage := voltage
        maxCurrent := maxCurrent
        resistance := resistance
        current := current
        power := power
        heatAccumulated := heat
        blown := decide (heat > 2) }
    else
      { st with
        voltage := voltage
        maxCurrent := maxCurrent
        resistance := resistance
        current := current
        power := power
        heatAccumulated := max 0 (st.heatAccumulated - deltaTime * (1 / 2)) }

/-- State record of a lamp, the `properties` set up by the `Lamp` constructor.
The code stores `brightness = min(sqrt(power / powerRating), 1.5)`; that square
root is irrational, so the state stores its square
`brightnessSq = min(power / powerRating, 9/4)` — an information-preserving
recoding (brightness is nonnegative and is never read back by the dynamics),
related to the original by `Real.sqrt` in the lamp theorem. -/
structure LampState where
  voltageRating : ℚ
  powerRating : ℚ
  resistance : ℚ
  voltage : ℚ
  current : ℚ
  power : ℚ
  brightnessSq : ℚ
  broken : Bool
  maxPower : ℚ
deriving DecidableEq, Repr

/-- The `Lamp` constructor state for given ratings. -/
def mkLampState (voltageRating powerRating : ℚ) : LampState :=
  { voltageRating := voltageRating, powerRating := powerRating,
    resistance := voltageRating * voltageRating / powerRating,
    voltage := 0, current := 0, power := 0, brightnessSq := 0,
    broken := false, maxPower := powerRating * (3 / 2) }

/-- `Lamp.simulate`: re-syncs resistance and the burn-out threshold with the
ratings when they drifted by more than 0.01, then either presents the broken
open circuit (brightness, current and power zero, near-infinite resistance) or
conducts, setting brightness from the power ratio and burning out once power
exceeds the stored 1.5-times-rating threshold. -/
def lampSimulate (_deltaTime : ℚ) (nv : JMap ℚ) (t0 t1 : String)
    (st : LampState) : LampState :=
  let v1 := (nv.get? t0).getD 0
  let v2 := (nv.get? t1).getD 0
  let voltage := v1 - v2
  let targetR := st.voltageRating * st.voltageRating / st.powerRating
  let resistance0 :=
    if |st.resistance - targetR| > 1 / 100 then targetR else st.resistance
  let maxPower0 :=
    if |st.resistance - targetR| > 1 / 100 then st.powerRating * (3 / 2)
    else st.maxPower
  if st.broken then
    { st with
      voltage := voltage
      resistance := 1000000000
      current := 0
      power := 0
      brightnessSq := 0
      maxPower := maxPower0 }
  else
    let current := voltage / resistance0
    let power := |voltage * current|
    let powerRatio := power / st.powerRating
    { st with
      voltage := voltage
      resistance := resistance0
      current := current
      power := power
      brightnessSq := min powerRatio (9 / 4)
      broken := decide (power > maxPower0)
      maxPower := maxPower0 }

/-- State record of a battery, the `properties` set up by the `Battery`
constructor. -/
structure BatteryState where
  voltage : ℚ
  capacity : ℚ
  chargeRemaining : ℚ
  current : ℚ
  power : ℚ
  chargePercent : ℚ
  internalResistance : ℚ
  maxCurrent : ℚ
  maxPower : ℚ
deriving DecidableEq, Repr

/-- The `Battery` constructor state for a given nominal voltage and mAh
capacity. -/
def mkBatteryState (voltage capacity : ℚ) : BatteryState :=
  { voltage := voltage, capacity := capacity, chargeRemaining := capacity,
    current := 0, power := 0, chargePercent := 100,
    internalResistance := 1 / 10, maxCurrent := 5, maxPower := 45 }

/-- `Battery.simulate`: branch current from the nominal-minus-terminal voltage
over the internal resistance; while discharging (current strictly positive)
the remaining charge drops by current times deltaTime converted to mAh
(clamped at zero), and the nominal voltage is multiplied by
`max(0.7, chargePercent/100)`. -/
def batterySimulate (deltaTime : ℚ) (nv : JMap ℚ) (t0 t1 : String)
    (st : BatteryState) : BatteryState :=
  let vPos := (nv.get? t0).getD 0
  let vNeg := (nv.get? t1).getD 0
  let current := (st.voltage - (vPos - vNeg)) / st.internalResistance
  let power := |(vPos - vNeg) * current|
  if current > 0 then
    let chargeUsed := current * deltaTime * 1000 / 3600
    let chargeRemaining := max 0 (st.chargeRemaining - chargeUsed)
    let chargePercent := chargeRemaining / st.capacity * 100
    let depletionFactor := max (7 / 10) (chargePercent / 100)
    { st with
      current := current
      power := power
      chargeRemaining := chargeRemaining
      chargePercent := chargePercent
      voltage := st.voltage * depletionFactor }
  else
    { st with
      current := current
      power := power }

/-- `Capacitor.simulate`'s current computation, over JavaScript numbers:
`(capacitance || 100e-6) * (dV / Math.max(deltaTime, 0.001))`, with the
terminal voltages and the previous voltage read through `|| 0`. -/
def capacitorCurrent (deltaTime : FP) (capacitance prevVoltage v1 v2 : Option FP) :
    FP :=
  let vp := fpOrZero v1
  let vn := fpOrZero v2
  let voltage := FP.sub vp vn
  let dV := FP.sub voltage (fpOrZero prevVoltage)
  FP.mul (fpOrD capacitance (FP.num (1 / 10000)))
    (FP.div dV (FP.fmax deltaTime (FP.num (1 / 1000))))

/-- Waveform kinds of the voltage source. -/
inductive WaveformType where
  | dc
  | sine
  | square
  | pulse
  | triangle
deriving DecidableEq, Repr

/-- Waveform generator configuration (frequency in Hz, duty cycle in [0,1],
phase in radians, DC offset in volts). -/
structure WaveformConfig where
  wtype : WaveformType
  frequency : ℚ
  dutyCycle : ℚ
  phase : ℚ
  offset : ℚ
deriving DecidableEq, Repr

/-- Truncation toward zero, the rounding JavaScript's `%` uses. -/
def ratTrunc (q : ℚ) : ℤ := if 0 ≤ q then ⌊q⌋ else -⌊-q⌋

/-- JavaScript's `%` on rationals (fmod: remainder with the dividend's
sign). -/
def jsMod (a b : ℚ) : ℚ := a - b * (ratTrunc (a / b) : ℚ)

/-- The waveform switch of `VoltageSource.simulate`, as a function of the time
it reads.  An absent waveform leaves the initialised 0.  The sine branch
(`voltage * sin(2*pi*f*t + phase) + offset`) and the phase normalisation of
the other branches (`phase / (2*pi)`) are transcendental; they are modelled
exactly where the phase is 0, and surface as `none` otherwise — every claim
evaluated here uses a zero phase. -/
def vsOutputVoltage (t : ℚ) (w : Option WaveformConfig) (voltage : ℚ) :
    Option ℚ :=
  match w with
  | none => some 0
  | some w =>
    match w.wtype with
    | .dc => some voltage
    | .sine => none
    | .square =>
      if w.phase = 0 then
        let p := jsMod (w.frequency * t) 1
        some ((if p < w.dutyCycle then voltage else -voltage) + w.offset)
      else none
    | .pulse =>
      if w.phase = 0 then
        let p := jsMod (w.frequency * t) 1
        some ((if p < w.dutyCycle then voltage else 0) + w.offset)
      else none
    | .triangle =>
      if w.phase = 0 then
        let p := jsMod (w.frequency * t) 1
        some ((if p < 1 / 2 then voltage * (4 * p - 1)
               else voltage * (3 - 4 * p)) + w.offset)
      else none

/-- State record of the dedicated voltage source, the `properties` set up by
the `VoltageSource` constructor. -/
structure VSState where
  voltage : ℚ
  current : ℚ
  maxCurrent : ℚ
  waveform : Option WaveformConfig
  power : ℚ
  maxPower : ℚ
deriving DecidableEq, Repr

/-- `VoltageSource.simulate`.  The source reads `performance.now() / 1000` —
the ambient wall clock, surfaced here as the explicit `wallClockMs` argument;
everything else it uses is the prior state, the solved node voltages and
`deltaTime` (which it ignores). -/
def vsSimulate (wallClockMs : ℚ) (nv : JMap ℚ) (t0 t1 : String)
    (st : VSState) : Option VSState :=
  let time := wallClockMs / 1000
  (vsOutputVoltage time st.waveform (orQ (some st.voltage) 0)).map
    (fun outputVoltage =>
      let vPos := (nv.get? t0).getD 0
      let vNeg := (nv.get? t1).getD 0
      let current := |vPos - vNeg| * (1 / 10)
      let maxPower := |outputVoltage| * orQ (some st.maxCurrent) 1
      { st with
        voltage := outputVoltage
        current := current
        power := |outputVoltage * current|
        maxPower := maxPower })

/-- Fault severities. -/
inductive Severity where
  | warning
  | error
  | critical
deriving DecidableEq, Repr

/-- A typed fault record as stored by the coordinator. -/
structure Fault where
  fid : String
  message : String
  severity : Severity
  stopSimulation : Bool
deriving DecidableEq, Repr

/-- Coordinator state, the simulation slice of the store; `γ` is the
component-instance type (component updates are dynamic dispatch in the source,
so the per-component update and fault check enter as functions). -/
structure SimState (γ : Type) where
  running : Bool
  time : ℚ
  speed : ℚ
  errors : List Fault
  components : List γ
deriving DecidableEq, Repr

/-- The per-component fault merge of `stepSimulation`: each reported fault is
appended unless one with the same message or identity is already known, and
the halt flag is latched for every reported fault, deduplicated or not. -/
def recordFaults (errors : List Fault) (hasStop : Bool) (errs : List Fault) :
    List Fault × Bool :=
  errs.foldl
    (fun acc err =>
      let seen := acc.1.any (fun e =>
        e.message == err.message || e.fid == err.fid)
      ((if seen then acc.1 else acc.1 ++ [err]),
       acc.2 || err.stopSimulation))
    (errors, hasStop)

/-- The component loop of `stepSimulation`: updates every component in order
and merges its reported faults. -/
def tickLoop {γ : Type} (simFn : γ → γ) (errFn : γ → List Fault)
    (comps : List γ) (acc : List γ × (List Fault × Bool)) :
    List γ × (List Fault × Bool) :=
  comps.foldl
    (fun acc comp =>
      let comp2 := simFn comp
      (acc.1 ++ [comp2], recordFaults acc.2.1 acc.2.2 (errFn comp2)))
    acc

/-- `stepSimulation` of the store: when running, advance simulation time,
update every component and collect faults, then — only after the whole loop —
stop the run when any reported fault carried the halt flag, and drop
non-halting faults when none did. -/
def stepSimulation {γ : Type} (simFn : γ → γ) (errFn : γ → List Fault)
    (deltaTime : ℚ) (st : SimState γ) : SimState γ :=
  if st.running then
    let time := st.time + deltaTime * st.speed
    let upd := tickLoop simFn errFn st.components ([], (st.errors, false))
    let hasStop := upd.2.2
    let running := if hasStop then false else st.running
    let errors :=
      if !hasStop && upd.2.1.length > 0 then
        upd.2.1.filter (·.stopSimulation)
      else upd.2.1
    { running := running, time := time, speed := st.speed, errors := errors,
      components := upd.1 }
  else st

/-- Terminal identity scheme of `BaseComponent.createTerminal`:
component id, dash, terminal name. -/
def mkTerminal (cid tname : String) : Terminal :=
  { tid := cid ++ "-" ++ tname, tname := tname }

/-- The `Resistor` constructor, solver-facing slice. -/
def mkResistorC (cid : String) (resistance : ℚ) : Component :=
  { cid := cid, ctype := .resistor,
    terminals := [mkTerminal cid "terminal1", mkTerminal cid "terminal2"],
    props := { value := some resistance, voltage := some 0 } }

/-- The `Capacitor` constructor, solver-facing slice. -/
def mkCapacitorC (cid : String) : Component :=
  { cid := cid, ctype := .capacitor,
    terminals := [mkTerminal cid "positive", mkTerminal cid "negative"],
    props := { voltage := some 0 } }

/-- The `Inductor` constructor, solver-facing slice. -/
def mkInductorC (cid : String) : Component :=
  { cid := cid, ctype := .inductor,
    terminals := [mkTerminal cid "terminal1", mkTerminal cid "terminal2"],
    props := { voltage := some 0 } }

/-- The `Diode` constructor, solver-facing slice. -/
def mkDiodeC (cid : String) : Component :=
  { cid := cid, ctype := .diode,
    terminals := [mkTerminal cid "anode", mkTerminal cid "cathode"],
    props := { voltage := some 0 } }

/-- The `LED` constructor, solver-facing slice. -/
def mkLEDC (cid : String) : Component :=
  { cid := cid, ctype := .led,
    terminals := [mkTerminal cid "anode", mkTerminal cid "cathode"],
    props := { voltage := some 0 } }

/-- The `Fuse` constructor, solver-facing slice. -/
def mkFuseC (cid : String) : Component :=
  { cid := cid, ctype := .fuse,
    terminals := [mkTerminal cid "in", mkTerminal cid "out"],
    props := { voltage := some 0, blown := some false,
               resistance := some (1 / 100) } }

/-- The `VoltageSource` constructor, solver-facing slice, with the presently
stored output voltage (5 at construction). -/
def mkVoltageSourceC (cid : String) (voltage : ℚ) : Component :=
  { cid := cid, ctype := .voltageSource,
    terminals := [mkTerminal cid "positive", mkTerminal cid "negative"],
    props := { voltage := some voltage } }

/-- The `Battery` constructor, solver-facing slice. -/
def mkBatteryC (cid : String) (voltage : ℚ) : Component :=
  { cid := cid, ctype := .battery,
    terminals := [mkTerminal cid "positive", mkTerminal cid "negative"],
    props := { voltage := some voltage } }

/-- The `Ground` constructor, solver-facing slice: one single terminal, as in
the source. -/
def mkGroundC (cid : String) : Component :=
  { cid := cid, ctype := .ground,
    terminals := [mkTerminal cid "ground"],
    props := { voltage := some 0 } }

/-- The `Switch` constructor, solver-facing slice. -/
def mkSwitchC (cid : String) (closed : Bool) : Component :=
  { cid := cid, ctype := .switch,
    terminals := [mkTerminal cid "in", mkTerminal cid "out"],
    props := { voltage := some 0, closed := some closed,
               resistance := some (if closed then 1 / 100 else 1000000000) } }

/-- The `Potentiometer` constructor, solver-facing slice. -/
def mkPotentiometerC (cid : String) (maxResistance wiperPercent : ℚ) :
    Component :=
  { cid := cid, ctype := .potentiometer,
    terminals := [mkTerminal cid "terminal1", mkTerminal cid "terminal2"],
    props := { value := some (maxResistance * wiperPercent / 100),
               voltage := some 0 } }

/-- The `Lamp` constructor, solver-facing slice. -/
def mkLampC (cid : String) (voltageRating powerRating : ℚ) : Component :=
  { cid := cid, ctype := .lamp,
    terminals := [mkTerminal cid "t1", mkTerminal cid "t2"],
    props := { resistance := some (voltageRating * voltageRating / powerRating),
               voltage := some 0 } }

/-- A single resistor wired across the dedicated DC voltage source (positive
to terminal1, negative to terminal2). -/
def singleLoopComps (V R : ℚ) : List Component :=
  [mkVoltageSourceC "vs" V, mkResistorC "r1" R]

/-- The two wires of the single-loop circuit. -/
def singleLoopWires : List Wire :=
  [{ wid := "w1", fromTerminal := "vs-positive", toTerminal := "r1-terminal1" },
   { wid := "w2", fromTerminal := "vs-negative", toTerminal := "r1-terminal2" }]

/-- A voltage source and a resistor with no wires at all: the resistor's two
nodes have no path to ground, a structurally singular system. -/
def floatingComps : List Component :=
  [mkVoltageSourceC "vs" 5, mkResistorC "r1" 1000]


set_option maxRecDepth 8000

/-- C1: the claim says a structurally singular system (here: a voltage source
and a resistor with no wires, so the resistor sub-network has no path to
ground) makes the solver detect a small pivot and fail with a SingularSystem
condition, never returning NaN node voltages.  The code has no pivot-magnitude
test and no failure result at all: the solve returns normally and the returned
node-voltage map carries NaN on every non-ground node of the floating
sub-network (and on the source's positive node). -/
theorem C1_singular_system_returns_nan :
    (solveCircuit floatingComps []).isSome = true ∧
    (solveCircuit floatingComps []).bind
        (fun r => r.nodeVoltages.get? "r1-terminal1") = some FP.nan ∧
    (solveCircuit floatingComps []).bind
        (fun r => r.nodeVoltages.get? "r1-terminal2") = some FP.nan ∧
    (solveCircuit floatingComps []).bind
        (fun r => r.nodeVoltages.get? "vs-positive") = some FP.nan := by
  refine ⟨?_, ?_, ?_, ?_⟩ <;> with_unfolding_all rfl

/-- C8: s every component kind the factory can build has exactly two
terminals — except the ground reference, whose constructor creates a single
terminal; consequently the branch-constraint stamp, which reads
`terminals[1].id` of every ideal-voltage component, throws on any circuit
containing a ground component (modelled: the solve returns `none`). -/
theorem C8_ground_has_one_terminal :
    (mkResistorC "c" 1000).terminals.length = 2 ∧
    (mkCapacitorC "c").terminals.length = 2 ∧
    (mkInductorC "c").terminals.length = 2 ∧
    (mkDiodeC "c").terminals.length = 2 ∧
    (mkLEDC "c").terminals.length = 2 ∧
    (mkFuseC "c").terminals.length = 2 ∧
    (mkVoltageSourceC "c" 5).terminals.length = 2 ∧
    (mkBatteryC "c" 9).terminals.length = 2 ∧
    (mkSwitchC "c" false).terminals.length = 2 ∧
    (mkPotentiometerC "c" 10000 50).terminals.length = 2 ∧
    (mkLampC "c" 12 60).terminals.length = 2 ∧
    (mkGroundC "g1").terminals.length = 1 ∧
    solveCircuit [mkGroundC "g1"] [] = none := by
  decide

/-- C2 counterexample: a battery belongs to the claimed "ideal DC source
family", so by the claim the node of its second terminal (b1-negative) should
become ground; on a circuit holding just one battery the code instead falls
back to first-node ground: the first terminal's node gets the sentinel -1 and
the second terminal's node gets row index 0. -/
theorem C2_battery_not_grounding :
    (identifyNodes [mkBatteryC "b1" 9] []).terminalToNode.get? "b1-negative"
        = some "b1-negative" ∧
    (identifyNodes [mkBatteryC "b1" 9] []).nodeIndex.get? "b1-negative"
        = some 0 ∧
    (identifyNodes [mkBatteryC "b1" 9] []).nodeIndex.get? "b1-positive"
        = some (-1) := by
  decide

/-- C3 counterexample: with a 0-volt source across a 1000-ohm resistor the
claim demands current V/R = 0; the stamping reads `voltage || 5`, JavaScript
falsiness turns the stored 0 into the default 5, and the solved resistor
current is 1/200 ampere, not 0. -/
theorem C3_zero_volt_source_uses_default :
    (solveCircuit (singleLoopComps 0 1000) singleLoopWires).bind
        (fun r => r.componentCurrents.get? "r1") = some (FP.num (1 / 200)) ∧
    (1 / 200 : ℚ) ≠ 0 / 1000 := by
  refine ⟨by with_unfolding_all rfl, by norm_num⟩

/-- The square waveform used to exhibit the wall-clock dependence: 5 V
amplitude, 1 Hz, duty cycle one half, no phase shift, no offset. -/
def squareWave : WaveformConfig :=
  { wtype := .square, frequency := 1, dutyCycle := 1 / 2, phase := 0,
    offset := 0 }

/-- The voltage-source state holding that waveform with the constructor's
remaining defaults. -/
def squareVSState : VSState :=
  { voltage := 5, current := 0, maxCurrent := 1, waveform := some squareWave,
    power := 0, maxPower := 0 }

/-- C4: the claim says each tick's output is computed from wall-clock-free
simulation time only, so identical topology, prior state and deltaTime give
identical output.  `VoltageSource.simulate` reads `performance.now()`: with
the state, node voltages and deltaTime all held fixed, evaluating the update
at wall-clock 0 ms and at wall-clock 600 ms yields target output voltages
+5 and -5. -/
theorem C4_wall_clock_dependence :
    (vsSimulate 0 JMap.empty "vs-positive" "vs-negative" squareVSState).map
        (fun st => st.voltage) = some 5 ∧
    (vsSimulate 600 JMap.empty "vs-positive" "vs-negative" squareVSState).map
        (fun st => st.voltage) = some (-5) := by
  refine ⟨?_, ?_⟩ <;> with_unfolding_all rfl

theorem fpOrZero_num (a : ℚ) : fpOrZero (some (FP.num a)) = FP.num a := by
  by_cases h : a = 0 <;> simp [fpOrZero, FP.falsy, h]

theorem fpOrD_num (a : ℚ) (d : FP) (h : a ≠ 0) :
    fpOrD (some (FP.num a)) d = FP.num a := by
  simp [fpOrD, FP.falsy, h]

theorem FP.add_num (a b : ℚ) : FP.add (FP.num a) (FP.num b) = FP.num (a + b) :=
  rfl

theorem FP.sub_num (a b : ℚ) : FP.sub (FP.num a) (FP.num b) = FP.num (a - b) := by
  show FP.add (FP.num a) (FP.num (-b)) = FP.num (a - b)
  rw [FP.add_num]
  ring_nf

theorem FP.mul_num (a b : ℚ) : FP.mul (FP.num a) (FP.num b) = FP.num (a * b) :=
  rfl

theorem FP.div_num (a b : ℚ) (h : b ≠ 0) :
    FP.div (FP.num a) (FP.num b) = FP.num (a / b) := by
  simp [FP.div, h]

theorem FP.fmax_num (a b : ℚ) :
    FP.fmax (FP.num a) (FP.num b) = FP.num (max a b) := by
  rcases le_or_lt b a with h | h
  · simp [FP.fmax, FP.lt, max_eq_left h, not_lt.mpr h]
  · simp [FP.fmax, FP.lt, max_eq_right h.le, h]

/-- C10: the divisor of the capacitor current computation
`I = C * dV / max(deltaTime, 0.001)` is clamped to at least 0.001, so for
every deltaTime — zero and negative included — and all finite node voltages,
previous voltage and capacitance, the computed current is a finite value (no
NaN or Infinity at the public tick interface). -/
theorem C10_capacitor_current_finite (dt c p a b : ℚ) :
    FP.fmax (FP.num dt) (FP.num (1 / 1000)) = FP.num (max dt (1 / 1000)) ∧
    (1 / 1000 : ℚ) ≤ max dt (1 / 1000) ∧
    (capacitorCurrent (FP.num dt) (some (FP.num c)) (some (FP.num p))
        (some (FP.num a)) (some (FP.num b))).isFinite = true := by
  refine ⟨FP.fmax_num dt (1 / 1000), le_max_right _ _, ?_⟩
  have hden : max dt (1 / 1000) ≠ 0 := by positivity
  by_cases hc : c = 0
  · subst hc
    simp only [capacitorCurrent, fpOrZero_num, FP.sub_num, FP.fmax_num]
    rw [show fpOrD (some (FP.num 0)) (FP.num (1 / 10000)) = FP.num (1 / 10000)
        by simp [fpOrD, FP.falsy]]
    rw [FP.div_num _ _ hden, FP.mul_num]
    rfl
  · simp only [capacitorCurrent, fpOrZero_num, FP.sub_num, FP.fmax_num,
      fpOrD_num _ _ hc]
    rw [FP.div_num _ _ hden, FP.mul_num]
    rfl

/-- C5: a fuse rated 1 A carrying 3 A (terminal voltage 0.03 V across the
0.01-ohm intact resistance, so currentRatio = 3) accumulates
currentRatio-squared times deltaTime of heat on every intact tick, and blows
exactly on the tick in which the accumulated heat passes the threshold 2;
once blown, every subsequent tick keeps the blown flag, presents near-infinite
resistance, zero current and zero power, until an external reset. -/
theorem C5_fuse_blow_and_latch :
    (∀ (st : FuseState) (dt : ℚ) (nv : JMap ℚ) (t0 t1 : String),
      st.blown = false → st.rating = 1 →
      (nv.get? t0).getD 0 - (nv.get? t1).getD 0 = 3 / 100 →
      (fuseSimulate dt nv t0 t1 st).current = 3 ∧
      (fuseSimulate dt nv t0 t1 st).heatAccumulated
          = st.heatAccumulated + 9 * dt ∧
      ((fuseSimulate dt nv t0 t1 st).blown = true ↔
        2 < st.heatAccumulated + 9 * dt)) ∧
    (∀ (st : FuseState) (dt : ℚ) (nv : JMap ℚ) (t0 t1 : String),
      st.blown = true →
      (fuseSimulate dt nv t0 t1 st).blown = true ∧
      (fuseSimulate dt nv t0 t1 st).resistance = 1000000000 ∧
      (fuseSimulate dt nv t0 t1 st).current = 0 ∧
      (fuseSimulate dt nv t0 t1 st).power = 0 ∧
      (fuseSimulate dt nv t0 t1 st).heatAccumulated = st.heatAccumulated) := by
  constructor
  · intro st dt nv t0 t1 hb hr hv
    have h3 : ((3 : ℚ) / 100) / (1 / 100) = 3 := by norm_num
    simp only [fuseSimulate, hb, Bool.false_eq_true, if_false, hv, hr, h3]
    norm_num
  · intro st dt nv t0 t1 hb
    simp [fuseSimulate, hb]

/-- Witness for the fuse claim: a fresh 1 A fuse at 0.03 V across its
terminals carries 3 A and gains 9/10 heat in a 0.1 s tick. -/
theorem C5_fuse_witness :
    (mkFuseState 1).blown = false ∧
    (fuseSimulate (1 / 10) ⟨[("f-in", 3 / 100)]⟩ "f-in" "f-out"
        (mkFuseState 1)).current = 3 ∧
    (fuseSimulate (1 / 10) ⟨[("f-in", 3 / 100)]⟩ "f-in" "f-out"
        (mkFuseState 1)).heatAccumulated = 0 + 9 * (1 / 10) ∧
    (fuseSimulate (1 / 10) ⟨[("f-in", 3 / 100)]⟩ "f-in" "f-out"
        { mkFuseState 1 with blown := true }).blown = true :=
  ⟨rfl,
   (C5_fuse_blow_and_latch.1 (mkFuseState 1) (1 / 10) ⟨[("f-in", 3 / 100)]⟩
      "f-in" "f-out" rfl rfl (by with_unfolding_all rfl)).1,
   (C5_fuse_blow_and_latch.1 (mkFuseState 1) (1 / 10) ⟨[("f-in", 3 / 100)]⟩
      "f-in" "f-out" rfl rfl (by with_unfolding_all rfl)).2.1,
   (C5_fuse_blow_and_latch.2 { mkFuseState 1 with blown := true } (1 / 10)
      ⟨[("f-in", 3 / 100)]⟩ "f-in" "f-out" rfl).1⟩

theorem sqrt_min_nine_fourths (x : ℝ) (_hx : 0 ≤ x) :
    Real.sqrt (min x (9 / 4)) = min (Real.sqrt x) (3 / 2) := by
  have h94 : Real.sqrt (9 / 4) = 3 / 2 := by
    rw [show (9 / 4 : ℝ) = (3 / 2) ^ 2 by norm_num,
      Real.sqrt_sq (by norm_num)]
  rcases le_total x (9 / 4) with h | h
  · rw [min_eq_left h, min_eq_left]
    calc Real.sqrt x ≤ Real.sqrt (9 / 4) := Real.sqrt_le_sqrt h
    _ = 3 / 2 := h94
  · rw [min_eq_right h, min_eq_right, h94]
    rw [← h94]
    exact Real.sqrt_le_sqrt h

/-- C6: once broken, a lamp stays broken on every tick and reports zero
brightness, current and power with near-infinite resistance (so repeated
ticks cannot re-trigger the transition); while intact, the tick leaves the
lamp broken exactly when the instantaneous power exceeds 1.5 times the rated
power (the stored threshold being in sync), and brightness — stored here by
its square — equals min(sqrt(power/powerRating), 1.5). -/
theorem C6_lamp_burnout :
    (∀ (dt : ℚ) (nv : JMap ℚ) (t0 t1 : String) (st : LampState),
      st.broken = true →
      (lampSimulate dt nv t0 t1 st).broken = true ∧
      (lampSimulate dt nv t0 t1 st).brightnessSq = 0 ∧
      (lampSimulate dt nv t0 t1 st).current = 0 ∧
      (lampSimulate dt nv t0 t1 st).power = 0 ∧
      (lampSimulate dt nv t0 t1 st).resistance = 1000000000) ∧
    (∀ (dt : ℚ) (nv : JMap ℚ) (t0 t1 : String) (st : LampState),
      st.broken = false → st.maxPower = st.powerRating * (3 / 2) →
      ((lampSimulate dt nv t0 t1 st).broken = true ↔
        st.powerRating * (3 / 2) < (lampSimulate dt nv t0 t1 st).power) ∧
      (lampSimulate dt nv t0 t1 st).brightnessSq
          = min ((lampSimulate dt nv t0 t1 st).power / st.powerRating)
              (9 / 4) ∧
      (0 < st.powerRating →
        Real.sqrt ((lampSimulate dt nv t0 t1 st).brightnessSq : ℝ)
          = min (Real.sqrt (((lampSimulate dt nv t0 t1 st).power : ℝ)
              / (st.powerRating : ℝ))) (3 / 2))) := by
  constructor
  · intro dt nv t0 t1 st hb
    simp [lampSimulate, hb]
  · intro dt nv t0 t1 st hb hmp
    simp only [lampSimulate, hb, Bool.false_eq_true, if_false]
    split_ifs with hsync
    · refine ⟨?_, ?_, ?_⟩
      · simp [decide_eq_true_iff]
      · trivial
      · intro hr
        push_cast
        refine sqrt_min_nine_fourths _ ?_
        have : (0 : ℝ) < (st.powerRating : ℝ) := by exact_mod_cast hr
        positivity
    · refine ⟨?_, ?_, ?_⟩
      · simp [decide_eq_true_iff, hmp]
      · trivial
      · intro hr
        push_cast
        refine sqrt_min_nine_fourths _ ?_
        have : (0 : ℝ) < (st.powerRating : ℝ) := by exact_mod_cast hr
        positivity

/-- Witness for the lamp claim: a broken 12 V / 60 W lamp stays broken
through a tick, and an intact one at 36 V across it (power 540 W, past the
90 W threshold) is broken by the tick. -/
theorem C6_lamp_witness :
    ({ mkLampState 12 60 with broken := true } : LampState).broken = true ∧
    (lampSimulate 1 ⟨[("l-t1", 36)]⟩ "l-t1" "l-t2"
        { mkLampState 12 60 with broken := true }).broken = true ∧
    (mkLampState 12 60).broken = false ∧
    (mkLampState 12 60).maxPower = (mkLampState 12 60).powerRating * (3 / 2) ∧
    ((lampSimulate 1 ⟨[("l-t1", 36)]⟩ "l-t1" "l-t2"
        (mkLampState 12 60)).broken = true ↔
      (mkLampState 12 60).powerRating * (3 / 2)
          < (lampSimulate 1 ⟨[("l-t1", 36)]⟩ "l-t1" "l-t2"
              (mkLampState 12 60)).power) :=
  ⟨rfl,
   (C6_lamp_burnout.1 1 ⟨[("l-t1", 36)]⟩ "l-t1" "l-t2"
      { mkLampState 12 60 with broken := true } rfl).1,
   rfl,
   by norm_num [mkLampState],
   (C6_lamp_burnout.2 1 ⟨[("l-t1", 36)]⟩ "l-t1" "l-t2" (mkLampState 12 60)
      rfl (by norm_num [mkLampState])).1⟩

/-- A battery mid-discharge: 9 V nominal, 500 mAh capacity, 450 mAh (90 %)
remaining. -/
def c7State : BatteryState :=
  { voltage := 9, capacity := 500, chargeRemaining := 450, current := 0,
    power := 0, chargePercent := 90, internalResistance := 1 / 10,
    maxCurrent := 5, maxPower := 45 }

/-- Terminal voltages putting 8 V across that battery, so it discharges at
(9 - 8) / 0.1 = 10 A. -/
def c7NV : JMap ℚ := ⟨[("b1-positive", 8)]⟩

/-- C7 counterexample: after a 0.36 s tick the battery has used exactly 1 mAh
(449 mAh, 89.8 % remain — a charge fraction well above the code's own 0.7
floor constant), yet the nominal voltage has already sagged from 9 V to
9 * 0.898 = 8.082 V: the voltage does not stay unchanged above the floor; it
is multiplied by max(0.7, fraction) on every discharging tick. -/
theorem C7_battery_sags_above_floor :
    (batterySimulate (9 / 25) c7NV "b1-positive" "b1-negative"
        c7State).current = 10 ∧
    (batterySimulate (9 / 25) c7NV "b1-positive" "b1-negative"
        c7State).chargeRemaining = 449 ∧
    (batterySimulate (9 / 25) c7NV "b1-positive" "b1-negative"
        c7State).chargePercent = 449 / 5 ∧
    (7 / 10 : ℚ) ≤ (449 / 5) / 100 ∧
    (batterySimulate (9 / 25) c7NV "b1-positive" "b1-negative"
        c7State).voltage = 9 * (449 / 500) ∧
    (batterySimulate (9 / 25) c7NV "b1-positive" "b1-negative"
        c7State).voltage < 9 := by
  have hs : ("b1-positive" : String) ≠ "b1-negative" := by decide
  norm_num [batterySimulate, c7State, c7NV, JMap.get?, jlookup, hs]

/-- C7 amended: while discharging (current strictly positive) the remaining
charge drops by current times deltaTime converted to mAh, clamped at zero;
the charge percentage follows; and the nominal voltage is multiplied by
max(0.7, fraction) on that very tick — for a positive nominal voltage it
therefore stays unchanged exactly when the remaining fraction is still 100 %,
and sags on every tick whose resulting fraction is below 100 % (the 0.7
constant bounds the per-tick multiplier, not the onset of sag). -/
theorem C7_battery_discharge (st : BatteryState) (dt : ℚ) (nv : JMap ℚ)
    (t0 t1 : String)
    (hcur : 0 < (st.voltage - ((nv.get? t0).getD 0 - (nv.get? t1).getD 0))
        / st.internalResistance) :
    (batterySimulate dt nv t0 t1 st).chargeRemaining
        = max 0 (st.chargeRemaining
            - (batterySimulate dt nv t0 t1 st).current * dt * 1000 / 3600) ∧
    (batterySimulate dt nv t0 t1 st).chargePercent
        = (batterySimulate dt nv t0 t1 st).chargeRemaining / st.capacity * 100 ∧
    (batterySimulate dt nv t0 t1 st).voltage
        = st.voltage
            * max (7 / 10) ((batterySimulate dt nv t0 t1 st).chargePercent / 100) ∧
    (0 < st.voltage →
      ((batterySimulate dt nv t0 t1 st).voltage < st.voltage ↔
        (batterySimulate dt nv t0 t1 st).chargePercent < 100) ∧
      ((batterySimulate dt nv t0 t1 st).voltage = st.voltage ↔
        (batterySimulate dt nv t0 t1 st).chargePercent = 100)) := by
  have hstep :
      batterySimulate dt nv t0 t1 st =
        (let cur := (st.voltage - ((nv.get? t0).getD 0 - (nv.get? t1).getD 0))
            / st.internalResistance
         let pw := |((nv.get? t0).getD 0 - (nv.get? t1).getD 0) * cur|
         let cr := max 0 (st.chargeRemaining - cur * dt * 1000 / 3600)
         let pct := cr / st.capacity * 100
         { st with
           current := cur
           power := pw
           chargeRemaining := cr
           chargePercent := pct
           voltage := st.voltage * max (7 / 10) (pct / 100) }) := by
    simp only [batterySimulate]
    rw [if_pos hcur]
  rw [hstep]
  refine ⟨rfl, rfl, rfl, ?_⟩
  intro hv
  set pct := (max 0 (st.chargeRemaining
      - (st.voltage - ((nv.get? t0).getD 0 - (nv.get? t1).getD 0))
          / st.internalResistance * dt * 1000 / 3600)) / st.capacity * 100
    with hpctdef
  have hmaxlt : max (7 / 10 : ℚ) (pct / 100) < 1 ↔ pct < 100 := by
    rw [max_lt_iff]
    constructor
    · rintro ⟨-, h⟩
      linarith
    · intro h
      exact ⟨by norm_num, by linarith⟩
  have hmaxeq : max (7 / 10 : ℚ) (pct / 100) = 1 ↔ pct = 100 := by
    constructor
    · intro h
      rcases max_cases (7 / 10 : ℚ) (pct / 100) with ⟨h1, h2⟩ | ⟨h1, h2⟩ <;>
          rw [h1] at h
      · norm_num at h
      · linarith
    · intro h
      rw [h]
      norm_num
  constructor
  · rw [mul_lt_iff_lt_one_right hv, hmaxlt]
  · rw [mul_right_eq_self₀, hmaxeq]
    constructor
    · rintro (h | h)
      · exact h
      · exact absurd h (ne_of_gt hv)
    · intro h
      exact Or.inl h

/-- Witness for the battery claim at the concrete mid-discharge state. -/
theorem C7_battery_witness :
    0 < (c7State.voltage - ((c7NV.get? "b1-positive").getD 0
        - (c7NV.get? "b1-negative").getD 0)) / c7State.internalResistance ∧
    (batterySimulate (9 / 25) c7NV "b1-positive" "b1-negative"
        c7State).voltage
      = c7State.voltage * max (7 / 10)
          ((batterySimulate (9 / 25) c7NV "b1-positive" "b1-negative"
              c7State).chargePercent / 100) :=
  ⟨by
     have hs : ("b1-positive" : String) ≠ "b1-negative" := by decide
     norm_num [c7State, c7NV, JMap.get?, jlookup, hs],
   (C7_battery_discharge c7State (9 / 25) c7NV "b1-positive" "b1-negative"
      (by
        have hs : ("b1-positive" : String) ≠ "b1-negative" := by decide
        norm_num [c7State, c7NV, JMap.get?, jlookup, hs])).2.2.1⟩

theorem recordFaults_snd (errs : List Fault) (errors : List Fault)
    (hasStop : Bool) :
    (recordFaults errors hasStop errs).2
      = (hasStop || errs.any (·.stopSimulation)) := by
  induction errs generalizing errors hasStop with
  | nil => simp [recordFaults]
  | cons e t ih =>
    simp only [recordFaults, List.foldl_cons, List.any_cons] at ih ⊢
    rw [ih, Bool.or_assoc]

theorem tickLoop_spec {γ : Type} (simFn : γ → γ) (errFn : γ → List Fault)
    (comps : List γ) (acc : List γ × (List Fault × Bool)) :
    (tickLoop simFn errFn comps acc).1 = acc.1 ++ comps.map simFn ∧
    (tickLoop simFn errFn comps acc).2.2
      = (acc.2.2 || comps.any
          (fun c => (errFn (simFn c)).any (·.stopSimulation))) := by
  induction comps generalizing acc with
  | nil => simp [tickLoop]
  | cons c t ih =>
    simp only [tickLoop, List.foldl_cons, List.map_cons, List.any_cons]
    have := ih (acc.1 ++ [simFn c],
      recordFaults acc.2.1 acc.2.2 (errFn (simFn c)))
    simp only [tickLoop] at this
    refine ⟨?_, ?_⟩
    · rw [this.1]
      simp
    · rw [this.2, recordFaults_snd, Bool.or_assoc]

/-- C9: on a running tick, the coordinator applies the per-component state
update to every component, in order, and only after the whole loop does it
stop the run — exactly when some component reported a fault carrying the halt
flag (whether or not that fault was already known, since deduplication does
not bypass the halt latch).  So the halting tick's state is always fully
updated before the stop takes effect. -/
theorem C9_halt_after_full_update {γ : Type} (simFn : γ → γ)
    (errFn : γ → List Fault) (deltaTime : ℚ) (st : SimState γ)
    (hrun : st.running = true) :
    (stepSimulation simFn errFn deltaTime st).components
        = st.components.map simFn ∧
    ((stepSimulation simFn errFn deltaTime st).running = false ↔
      st.components.any
        (fun c => (errFn (simFn c)).any (·.stopSimulation)) = true) := by
  have hspec := tickLoop_spec simFn errFn st.components ([], (st.errors, false))
  simp only [stepSimulation, hrun, if_true]
  constructor
  · simpa using hspec.1
  · have h2 := hspec.2
    simp only [Bool.false_or] at h2
    rw [h2]
    by_cases h : st.components.any
        (fun c => (errFn (simFn c)).any (·.stopSimulation)) = true
    · simp [h]
    · simp only [Bool.not_eq_true] at h
      simp [h, hrun]

/-- Witness for the coordinator claim: one component whose fault halts; the
component list is still updated and the run is stopped. -/
theorem C9_halt_witness :
    ({ running := true, time := 0, speed := 1, errors := [],
       components := [(0 : ℚ)] } : SimState ℚ).running = true ∧
    (stepSimulation (fun x => x + 1)
        (fun _ => [{ fid := "f1", message := "halt", severity := .error,
                     stopSimulation := true }]) 1
        { running := true, time := 0, speed := 1, errors := [],
          components := [(0 : ℚ)] }).components = [(1 : ℚ)] ∧
    (stepSimulation (fun x => x + 1)
        (fun _ => [{ fid := "f1", message := "halt", severity := .error,
                     stopSimulation := true }]) 1
        { running := true, time := 0, speed := 1, errors := [],
          components := [(0 : ℚ)] }).running = false := by
  refine ⟨rfl, ?_, ?_⟩
  · rw [(C9_halt_after_full_update (fun x => x + 1)
      (fun _ => [{ fid := "f1", message := "halt", severity := .error,
                   stopSimulation := true }]) 1
      { running := true, time := 0, speed := 1, errors := [],
        components := [(0 : ℚ)] } rfl).1]
    norm_num
  · rw [(C9_halt_after_full_update (fun x => x + 1)
      (fun _ => [{ fid := "f1", message := "halt", severity := .error,
                   stopSimulation := true }]) 1
      { running := true, time := 0, speed := 1, errors := [],
        components := [(0 : ℚ)] } rfl).2]
    decide

set_option maxHeartbeats 1000000

theorem gaussLoop2 (g V : ℚ) (hg : g ≠ 0) :
    gaussianElimination #[#[FP.num g, FP.num 1], #[FP.num 1, FP.num 0]]
      #[FP.num 0, FP.num V] = #[FP.num V, FP.num (-(g * V))] := by
  by_cases hlt : |g| < 1
  · simp [gaussianElimination, pivotSearch, swapPartialRows, eliminateBelow,
      fpmget, fpmset, FP.div, FP.mul, FP.add, FP.neg, FP.abs, FP.lt, FP.sub,
      List.range_succ, List.range', hlt]
    rfl
  · simp [gaussianElimination, pivotSearch, swapPartialRows, eliminateBelow,
      fpmget, fpmset, FP.div, FP.mul, FP.add, FP.neg, FP.abs, FP.lt, FP.sub,
      List.range_succ, List.range', hlt, hg]
    have h1 : V / (-1 / g) = -(g * V) := by
      field_simp
      ring
    have h2 : - -(g * V) / g = V := by
      field_simp
    rw [h1, h2]
    rfl

/-- The parent map the union-find builds for the single-loop circuit. -/
def pLoop : JMap String :=
  ⟨[("vs-positive", "r1-terminal1"), ("vs-negative", "r1-terminal2"),
    ("r1-terminal1", "r1-terminal1"), ("r1-terminal2", "r1-terminal2")]⟩

/-- The node information of the single-loop circuit: two nodes, the source's
negative-side node grounded, the other getting row 0. -/
def niLoop : NodeInfo :=
  { nodes := ⟨[("r1-terminal1", ["vs-positive", "r1-terminal1"]),
               ("r1-terminal2", ["vs-negative", "r1-terminal2"])]⟩,
    terminalToNode := ⟨[("vs-positive", "r1-terminal1"),
                        ("vs-negative", "r1-terminal2"),
                        ("r1-terminal1", "r1-terminal1"),
                        ("r1-terminal2", "r1-terminal2")]⟩,
    nodeIndex := ⟨[("r1-terminal2", -1), ("r1-terminal1", 0)]⟩ }

/-- C3 amended: for a single resistor R across the dedicated DC source of
stored voltage V, with V nonzero (a stored 0 is replaced by the JavaScript
default 5 during stamping — see the counterexample) and R nonzero, the whole
solve returns resistor current exactly V/R, resistor voltage drop exactly V,
source branch current -(V/R), and node voltages V and 0. -/
theorem C3_single_resistor_solve (V R : ℚ) (hV : V ≠ 0) (hR : R ≠ 0) :
    solveCircuit (singleLoopComps V R) singleLoopWires
      = some { nodeVoltages := ⟨[("r1-terminal2", FP.num 0),
                                 ("r1-terminal1", FP.num V)]⟩,
               componentVoltages := ⟨[("vs", FP.num V), ("r1", FP.num V)]⟩,
               componentCurrents := ⟨[("vs", FP.num (-(V / R))),
                                      ("r1", FP.num (V / R))]⟩ } := by
  have hp : circuitParent (singleLoopComps V R) singleLoopWires = pLoop := rfl
  have hni : identifyNodes (singleLoopComps V R) singleLoopWires = niLoop := by
    simp only [identifyNodes]
    rw [hp]
    rfl
  have hfilter : (singleLoopComps V R).filter isVoltageSourceKind
      = [mkVoltageSourceC "vs" V] := rfl
  have hstampC : stampConductances niLoop (singleLoopComps V R)
      (Array.mkArray 2 (Array.mkArray 2 (0 : ℚ)))
      = some #[#[0 + 1 / orQ (some R) 1000, 0], #[0, 0]] := rfl
  have hstampS : stampSources niLoop 1 [mkVoltageSourceC "vs" V]
      #[#[0 + 1 / orQ (some R) 1000, 0], #[0, 0]] (Array.mkArray 2 (0 : ℚ))
      = some (#[#[0 + 1 / orQ (some R) 1000, 1], #[1, 0]],
              #[0, orQ (some V) 5]) := rfl
  have horq : orQ (some R) 1000 = R := by simp [orQ, hR]
  have horqV : orQ (some V) 5 = V := by simp [orQ, hV]
  have hIR : (1 : ℚ) / R ≠ 0 := one_div_ne_zero hR
  simp only [solveCircuit, hni, solveMNA, hfilter]
  rw [show niLoop.nodeIndex.size
      - (if niLoop.nodeIndex.values.contains (-1) then 1 else 0) = 1 from rfl]
  rw [show List.length [mkVoltageSourceC "vs" V] = 1 from rfl]
  rw [hstampC]
  simp only [Option.bind_eq_bind, Option.some_bind]
  rw [hstampS]
  simp only [Option.bind_eq_bind, Option.some_bind, horq, horqV, zero_add]
  rw [show (#[#[1 / R, 1], #[1, 0]].map fun row => row.map FP.num)
      = #[#[FP.num (1 / R), FP.num 1], #[FP.num 1, FP.num 0]] from rfl]
  rw [show (#[(0 : ℚ), V].map FP.num) = #[FP.num 0, FP.num V] from rfl]
  rw [gaussLoop2 (1 / R) V hIR]
  rw [show (List.foldl
      (fun nv e =>
        if e.2 = -1 then nv.set e.1 (FP.num 0)
        else nv.set e.1 (#[FP.num V, FP.num (-(1 / R * V))].getD e.2.toNat
            FP.nan))
      JMap.empty niLoop.nodeIndex.entries)
    = (⟨[("r1-terminal2", FP.num 0), ("r1-terminal1", FP.num V)]⟩ : JMap FP)
    from rfl]
  rw [show extractComponents niLoop (singleLoopComps V R)
      [mkVoltageSourceC "vs" V] 1
      (⟨[("r1-terminal2", FP.num 0), ("r1-terminal1", FP.num V)]⟩ : JMap FP)
      #[FP.num V, FP.num (-(1 / R * V))]
    = some
      (⟨[("vs", (fpOrZero (some (FP.num V))).sub (FP.num 0)),
         ("r1", (fpOrZero (some (FP.num V))).sub (FP.num 0))]⟩,
       ⟨[("vs", FP.num (-(1 / R * V))),
         ("r1", FP.div ((fpOrZero (some (FP.num V))).sub (FP.num 0))
            (FP.num (orQ (some R) 1000)))]⟩) from rfl]
  simp only [Option.bind_eq_bind, Option.some_bind]
  simp only [fpOrZero_num, FP.sub_num, sub_zero, horq]
  rw [FP.div_num _ _ hR]
  rw [show -(1 / R * V) = -(V / R) by ring]

/-- Witness for the single-loop claim: the 5 V, 1000 ohm example — current
0.005 A, voltage drop 5 V. -/
theorem C3_single_resistor_witness :
    (5 : ℚ) ≠ 0 ∧ (1000 : ℚ) ≠ 0 ∧
    solveCircuit (singleLoopComps 5 1000) singleLoopWires
      = some { nodeVoltages := ⟨[("r1-terminal2", FP.num 0),
                                 ("r1-terminal1", FP.num 5)]⟩,
               componentVoltages := ⟨[("vs", FP.num 5), ("r1", FP.num 5)]⟩,
               componentCurrents := ⟨[("vs", FP.num (-(5 / 1000))),
                                      ("r1", FP.num (5 / 1000))]⟩ } :=
  ⟨by norm_num, by norm_num,
   C3_single_resistor_solve 5 1000 (by norm_num) (by norm_num)⟩

theorem assignLoop_get_notMem (ids : List String) (m : JMap Int) (idx : ℕ)
    (k : String) (hk : k ∉ ids) :
    (assignLoop ids m idx).get? k = m.get? k := by
  induction ids generalizing m idx with
  | nil => rfl
  | cons a t ih =>
    have hka : k ≠ a := fun h => hk (h ▸ List.mem_cons_self a t)
    have hkt : k ∉ t := fun h => hk (List.mem_cons_of_mem a h)
    by_cases ha : m.get? a = some (-1)
    · simp only [assignLoop, ha, if_pos]
      exact ih m idx hkt
    · simp only [assignLoop, ha, if_neg, not_false_iff]
      rw [ih _ _ hkt, JMap.get?_set_ne _ _ _ _ (Ne.symm hka)]

theorem assignLoop_sentinel (ids : List String) (m : JMap Int) (idx : ℕ)
    (g : String) (hg : m.get? g = some (-1)) :
    (assignLoop ids m idx).get? g = some (-1) := by
  induction ids generalizing m idx with
  | nil => exact hg
  | cons a t ih =>
    by_cases ha : m.get? a = some (-1)
    · simp only [assignLoop, ha, if_pos]
      exact ih m idx hg
    · have hag : a ≠ g := fun h => ha (h ▸ hg)
      simp only [assignLoop, ha, if_neg, not_false_iff]
      exact ih _ _ (by rw [JMap.get?_set_ne _ _ _ _ hag]; exact hg)

theorem assignLoop_get (ids : List String) (m : JMap Int) (idx : ℕ)
    (nid : String) (hmem : nid ∈ ids) (hnodup : ids.Nodup)
    (hm : m.get? nid ≠ some (-1)) :
    (assignLoop ids m idx).get? nid
      = some (Int.ofNat (idx
          + ((ids.takeWhile (fun x => decide (x ≠ nid))).filter
              (fun x => decide (m.get? x ≠ some (-1)))).length)) := by
  induction ids generalizing m idx with
  | nil => exact absurd hmem (List.not_mem_nil nid)
  | cons a t ih =>
    rcases List.nodup_cons.mp hnodup with ⟨hat, htn⟩
    by_cases han : a = nid
    · subst han
      simp only [assignLoop, hm, if_neg, not_false_iff]
      rw [assignLoop_get_notMem t _ _ a hat, JMap.get?_set_self]
      simp
    · have hmt : nid ∈ t := by
        rcases List.mem_cons.mp hmem with h | h
        · exact absurd h.symm han
        · exact h
      by_cases ha : m.get? a = some (-1)
      · simp only [assignLoop, ha, if_pos]
        rw [ih m idx hmt htn hm]
        congr 2
        simp only [List.takeWhile_cons, han, Ne.symm, decide_eq_true_eq]
        rw [if_pos (by simpa using fun h => han h)]
        simp [List.filter_cons, ha]
      · simp only [assignLoop, ha, if_neg, not_false_iff]
        have hm2 : (m.set a (Int.ofNat idx)).get? nid ≠ some (-1) := by
          rw [JMap.get?_set_ne _ _ _ _ han]
          exact hm
        rw [ih _ _ hmt htn hm2]
        congr 1
        have hfc : (t.takeWhile (fun x => decide (x ≠ nid))).filter
              (fun x => decide ((m.set a (Int.ofNat idx)).get? x ≠ some (-1)))
            = (t.takeWhile (fun x => decide (x ≠ nid))).filter
              (fun x => decide (m.get? x ≠ some (-1))) := by
          apply List.filter_congr
          intro x hx
          have hxt : x ∈ t := (List.takeWhile_prefix _).subset hx
          have hxa : a ≠ x := fun h => hat (h ▸ hxt)
          rw [JMap.get?_set_ne _ _ _ _ hxa]
        rw [hfc]
        simp only [List.takeWhile_cons, decide_eq_true_eq]
        rw [if_pos (by simpa using fun h => han h)]
        have hda : (decide (m.get? a ≠ some (-1))) = true := by
          simpa using ha
        simp only [List.filter_cons, hda, if_pos, List.length_cons]
        congr 1
        omega

theorem buildNodes_keys_nodup (p : JMap String) :
    (buildNodes p).1.keys.Nodup := by
  have hfold : ∀ (l : List String)
      (acc : JMap (List String) × JMap String × JMap String),
      acc.1.keys.Nodup →
      (l.foldl
        (fun acc tid =>
          let (nodes, t2n, p) := acc
          let fr := ufFind (p.size + 1) p tid
          (nodes.set fr.1 ((nodes.get? fr.1).getD [] ++ [tid]),
           t2n.set tid fr.1, fr.2))
        acc).1.keys.Nodup := by
    intro l
    induction l with
    | nil => intro acc h; exact h
    | cons a t ih =>
      intro acc h
      rw [List.foldl_cons]
      exact ih _ (JMap.keys_set_nodup _ _ _ h)
  exact hfold p.keys (JMap.empty, JMap.empty, p) (by simp [JMap.empty, JMap.keys])

/-- The ground node the source selects (the root of the first dedicated
voltage source's second terminal, when one exists). -/
def groundChoice (comps : List Component) (wires : List Wire) :
    Option String :=
  selectGround comps (buildNodes (circuitParent comps wires)).2.2

/-- Node identities in discovery (insertion) order. -/
def discoveredNodes (comps : List Component) (wires : List Wire) :
    List String :=
  (buildNodes (circuitParent comps wires)).1.keys

/-- The node that actually holds the ground sentinel: the selected ground, or
the first discovered node as fallback. -/
def effSentinel (comps : List Component) (wires : List Wire) : Option String :=
  match groundChoice comps wires with
  | some g => some g
  | none => (discoveredNodes comps wires).head?

theorem assignLoop_base_spec (s : String) (ids : List String)
    (hnd : ids.Nodup) (nid : String) (hmem : nid ∈ ids) (hne : s ≠ nid) :
    (assignLoop ids (JMap.empty.set s (-1)) 0).get? nid
      = some (Int.ofNat ((ids.takeWhile (fun x => decide (x ≠ nid))).filter
          (fun x => decide (s ≠ x))).length) := by
  have hbase : (JMap.empty.set s (-1) : JMap Int).get? nid = none := by
    rw [JMap.get?_set_ne _ _ _ _ hne]
    rfl
  rw [assignLoop_get ids _ 0 nid hmem hnd (by rw [hbase]; simp)]
  have hfc : (ids.takeWhile (fun x => decide (x ≠ nid))).filter
        (fun x => decide ((JMap.empty.set s (-1) : JMap Int).get? x
          ≠ some (-1)))
      = (ids.takeWhile (fun x => decide (x ≠ nid))).filter
        (fun x => decide (s ≠ x)) := by
    apply List.filter_congr
    intro x hx
    by_cases hxs : s = x
    · subst hxs
      simp [JMap.get?_set_self]
    · rw [JMap.get?_set_ne _ _ _ _ hxs]
      simp [hxs, JMap.empty, JMap.get?, jlookup]
  rw [hfc, Nat.zero_add]

/-- C2 amended: the ground-selection family test is exactly "first component
tagged as a dedicated voltage source" — batteries and ground references never
trigger the second-terminal rule (see the battery counterexample); the
selected ground node (or, absent a selection, the first node discovered)
receives the sentinel index -1; and every other discovered node receives as
its row index the number of earlier-discovered non-ground nodes, i.e. the
indices 0..N-1 in discovery order. -/
theorem C2_ground_policy_amended (comps : List Component) (wires : List Wire) :
    (groundChoice comps wires
      = ((comps.find? fun c => c.ctype = ComponentType.voltageSource).bind
          fun vs => (vs.terminals.get? 1).map
            fun t => (ufFind
                ((buildNodes (circuitParent comps wires)).2.2.size + 1)
                (buildNodes (circuitParent comps wires)).2.2 t.tid).1)) ∧
    (∀ g, groundChoice comps wires = some g →
      (identifyNodes comps wires).nodeIndex.get? g = some (-1)) ∧
    (groundChoice comps wires = none →
      ∀ h1 t1, discoveredNodes comps wires = h1 :: t1 →
        (identifyNodes comps wires).nodeIndex.get? h1 = some (-1)) ∧
    (∀ nid ∈ discoveredNodes comps wires,
      effSentinel comps wires ≠ some nid →
      (identifyNodes comps wires).nodeIndex.get? nid
        = some (Int.ofNat
            (((discoveredNodes comps wires).takeWhile
                (fun x => decide (x ≠ nid))).filter
              (fun x => decide (effSentinel comps wires ≠ some x))).length)) := by
  have hA : (identifyNodes comps wires).nodeIndex
      = assignIndices (groundChoice comps wires)
          (discoveredNodes comps wires) := rfl
  have hnd : (discoveredNodes comps wires).Nodup :=
    buildNodes_keys_nodup (circuitParent comps wires)
  refine ⟨?_, ?_, ?_, ?_⟩
  · rcases hf : comps.find?
        (fun c => c.ctype = ComponentType.voltageSource) with _ | vs
    · simp [groundChoice, selectGround, hf]
    · simp only [groundChoice, selectGround, hf, Option.some_bind]
      cases vs.terminals.get? 1 <;> rfl
  · intro g hg
    rw [hA, hg]
    show (assignLoop (discoveredNodes comps wires)
        (JMap.empty.set g (-1)) 0).get? g = some (-1)
    exact assignLoop_sentinel _ _ _ _ (JMap.get?_set_self _ _ _)
  · intro hg h1 t1 hkeys
    rw [hA, hg, hkeys]
    show (assignLoop (h1 :: t1) (JMap.empty.set h1 (-1)) 0).get? h1
        = some (-1)
    exact assignLoop_sentinel _ _ _ _ (JMap.get?_set_self _ _ _)
  · intro nid hmem hne
    rw [hA]
    rcases hg : groundChoice comps wires with _ | g
    · rcases hkeys : discoveredNodes comps wires with _ | ⟨h1, t1⟩
      · rw [hkeys] at hmem
        exact absurd hmem (List.not_mem_nil nid)
      · have hsent : effSentinel comps wires = some h1 := by
          simp [effSentinel, hg, hkeys]
        rw [hsent] at hne
        have hne1 : h1 ≠ nid := fun h => hne (by rw [h])
        have hmem1 : nid ∈ h1 :: t1 := hkeys ▸ hmem
        have hnd1 : (h1 :: t1).Nodup := hkeys ▸ hnd
        have hpred : (((h1 :: t1).takeWhile
              (fun x => decide (x ≠ nid))).filter
                (fun x => decide (effSentinel comps wires ≠ some x)))
            = (((h1 :: t1).takeWhile (fun x => decide (x ≠ nid))).filter
                (fun x => decide (h1 ≠ x))) := by
          apply List.filter_congr
          intro x hx
          rw [hsent]
          simp
        rw [hpred]
        show (assignLoop (h1 :: t1) (JMap.empty.set h1 (-1)) 0).get? nid = _
        rw [assignLoop_base_spec h1 (h1 :: t1) hnd1 nid hmem1 hne1]
    · have hsent : effSentinel comps wires = some g := by
        simp [effSentinel, hg]
      rw [hsent] at hne
      have hne1 : g ≠ nid := fun h => hne (by rw [h])
      have hpred : (((discoveredNodes comps wires).takeWhile
            (fun x => decide (x ≠ nid))).filter
              (fun x => decide (effSentinel comps wires ≠ some x)))
          = (((discoveredNodes comps wires).takeWhile
              (fun x => decide (x ≠ nid))).filter
              (fun x => decide (g ≠ x))) := by
        apply List.filter_congr
        intro x hx
        rw [hsent]
        simp
      rw [hpred]
      show (assignLoop (discoveredNodes comps wires)
          (JMap.empty.set g (-1)) 0).get? nid = _
      rw [assignLoop_base_spec g (discoveredNodes comps wires) hnd nid hmem
        hne1]

/-- Witness for the ground-policy claim on the battery-only circuit: no
dedicated voltage source exists, so the fallback grounds the first discovered
node (the battery's first terminal) and the second terminal's node gets the
first row index. -/
theorem C2_ground_policy_witness :
    groundChoice [mkBatteryC "b1" 9] [] = none ∧
    discoveredNodes [mkBatteryC "b1" 9] []
      = ["b1-positive", "b1-negative"] ∧
    (identifyNodes [mkBatteryC "b1" 9] []).nodeIndex.get? "b1-positive"
      = some (-1) ∧
    (identifyNodes [mkBatteryC "b1" 9] []).nodeIndex.get? "b1-negative"
      = some (Int.ofNat
          (((discoveredNodes [mkBatteryC "b1" 9] []).takeWhile
              (fun x => decide (x ≠ "b1-negative"))).filter
            (fun x =>
              decide (effSentinel [mkBatteryC "b1" 9] [] ≠ some x))).length) :=
  ⟨rfl, rfl,
   (C2_ground_policy_amended [mkBatteryC "b1" 9] []).2.2.1 rfl
     "b1-positive" ["b1-negative"] rfl,
   (C2_ground_policy_amended [mkBatteryC "b1" 9] []).2.2.2 "b1-negative"
     (by decide) (by decide)⟩
